import Mathlib

/-!
Verification of the session lifecycle coordinator and request monitoring
service of claude-code-router-plus, as a shallow embedding in Lean 4.

The definitions below are translated from the TypeScript source:
  - Identity and registry helpers from src/utils/sessionManager.ts
    (generateSessionId, parseModelPreference, findAvailablePort,
     isSessionRunning, cleanupSessionPid, reference count operations),
  - the monitoring service from src/utils/monitoring.ts
    (startRequest, updateRequest, endRequest, updateSessionMetrics,
     archiveOldLogs, getRecentRequests, streamLogs),
  - the session stop HTTP endpoint from src/server.ts.

Conventions of the embedding: machine integers and JS numbers that only
ever hold integers are Nat or Int; the running average is computed in Rat
(exact rational arithmetic standing for real-number semantics of the
arithmetic in the source); JS Map objects are association lists in
insertion order; the filesystem and OS process table are explicit state
(Option-valued file contents, Bool-valued liveness predicates); fallible
operations return Option. Wall-clock time and generated identifiers are
passed as explicit parameters.
-/

namespace CCR

/-! ## MD5 (the crypto library digest used by generateSessionId)

The source calls createHash of the node crypto library. The full MD5 of
RFC 1321 is implemented here over byte lists so that the derived session
identifiers are the concrete executable values the program computes.
-/

/-- Modulus for 32-bit arithmetic. -/
def M32 : Nat := 4294967296

/-- Left rotation of a 32-bit word. -/
def rotl32 (x c : Nat) : Nat :=
  ((x <<< c) % M32) ||| (x >>> (32 - c))

/-- The 64 MD5 sine-derived constants of RFC 1321. -/
def md5K : List Nat := [
  0xd76aa478, 0xe8c7b756, 0x242070db, 0xc1bdceee,
  0xf57c0faf, 0x4787c62a, 0xa8304613, 0xfd469501,
  0x698098d8, 0x8b44f7af, 0xffff5bb1, 0x895cd7be,
  0x6b901122, 0xfd987193, 0xa679438e, 0x49b40821,
  0xf61e2562, 0xc040b340, 0x265e5a51, 0xe9b6c7aa,
  0xd62f105d, 0x02441453, 0xd8a1e681, 0xe7d3fbc8,
  0x21e1cde6, 0xc33707d6, 0xf4d50d87, 0x455a14ed,
  0xa9e3e905, 0xfcefa3f8, 0x676f02d9, 0x8d2a4c8a,
  0xfffa3942, 0x8771f681, 0x6d9d6122, 0xfde5380c,
  0xa4beea44, 0x4bdecfa9, 0xf6bb4b60, 0xbebfbc70,
  0x289b7ec6, 0xeaa127fa, 0xd4ef3085, 0x04881d05,
  0xd9d4d039, 0xe6db99e5, 0x1fa27cf8, 0xc4ac5665,
  0xf4292244, 0x432aff97, 0xab9423a7, 0xfc93a039,
  0x655b59c3, 0x8f0ccc92, 0xffeff47d, 0x85845dd1,
  0x6fa87e4f, 0xfe2ce6e0, 0xa3014314, 0x4e0811a1,
  0xf7537e82, 0xbd3af235, 0x2ad7d2bb, 0xeb86d391]

/-- The 64 per-round left-rotation amounts of RFC 1321. -/
def md5Shift : List Nat := [
  7, 12, 17, 22, 7, 12, 17, 22, 7, 12, 17, 22, 7, 12, 17, 22,
  5, 9, 14, 20, 5, 9, 14, 20, 5, 9, 14, 20, 5, 9, 14, 20,
  4, 11, 16, 23, 4, 11, 16, 23, 4, 11, 16, 23, 4, 11, 16, 23,
  6, 10, 15, 21, 6, 10, 15, 21, 6, 10, 15, 21, 6, 10, 15, 21]

/-- UTF-8 encoding of one character as a byte list. -/
def utf8Bytes (c : Char) : List Nat :=
  let n := c.toNat
  if n < 0x80 then [n]
  else if n < 0x800 then
    [0xc0 ||| (n >>> 6), 0x80 ||| (n &&& 0x3f)]
  else if n < 0x10000 then
    [0xe0 ||| (n >>> 12), 0x80 ||| ((n >>> 6) &&& 0x3f), 0x80 ||| (n &&& 0x3f)]
  else
    [0xf0 ||| (n >>> 18), 0x80 ||| ((n >>> 12) &&& 0x3f),
     0x80 ||| ((n >>> 6) &&& 0x3f), 0x80 ||| (n &&& 0x3f)]

/-- UTF-8 bytes of a string. -/
def stringBytes (s : String) : List Nat := s.data.flatMap utf8Bytes

/-- Little-endian byte decomposition of a 64-bit value. -/
def leBytes8 (n : Nat) : List Nat :=
  (List.range 8).map (fun i => (n >>> (8 * i)) % 256)

/-- Little-endian byte decomposition of a 32-bit word. -/
def leBytes4 (w : Nat) : List Nat :=
  [w % 256, (w >>> 8) % 256, (w >>> 16) % 256, (w >>> 24) % 256]

/-- MD5 padding: a 0x80 byte, zeros to 56 mod 64, then the bit length. -/
def md5Pad (msg : List Nat) : List Nat :=
  let len := msg.length
  let zeros := (120 - (len + 1) % 64) % 64
  msg ++ [0x80] ++ List.replicate zeros 0 ++ leBytes8 (len * 8)

/-- Split a byte list into 64-byte blocks. -/
def toBlocks (l : List Nat) : List (List Nat) :=
  if h : l = [] then []
  else
    l.take 64 :: toBlocks (l.drop 64)
termination_by l.length
decreasing_by
  have : l.length ≠ 0 := fun hl => h (List.eq_nil_of_length_eq_zero hl)
  simp [List.length_drop]
  omega

/-- Message word g of a 64-byte block, little endian. -/
def wordAt (block : List Nat) (g : Nat) : Nat :=
  block.getD (4 * g) 0 + ((block.getD (4 * g + 1) 0) <<< 8) +
    ((block.getD (4 * g + 2) 0) <<< 16) + ((block.getD (4 * g + 3) 0) <<< 24)

/-- One of the 64 MD5 rounds on the state quadruple. -/
def md5Round (block : List Nat) (st : Nat × Nat × Nat × Nat) (i : Nat) :
    Nat × Nat × Nat × Nat :=
  let (A, B, C, D) := st
  let mask := 4294967295
  let fg : Nat × Nat :=
    if i < 16 then ((B &&& C) ||| ((B ^^^ mask) &&& D), i)
    else if i < 32 then ((D &&& B) ||| ((D ^^^ mask) &&& C), (5 * i + 1) % 16)
    else if i < 48 then (B ^^^ C ^^^ D, (3 * i + 5) % 16)
    else (C ^^^ (B ||| (D ^^^ mask)), (7 * i) % 16)
  let f := (fg.1 + A + md5K.getD i 0 + wordAt block fg.2) % M32
  (D, (B + rotl32 f (md5Shift.getD i 0)) % M32, B, C)

/-- Process one 64-byte block of the padded message. -/
def md5Block (st : Nat × Nat × Nat × Nat) (block : List Nat) :
    Nat × Nat × Nat × Nat :=
  let r := (List.range 64).foldl (md5Round block) st
  ((st.1 + r.1) % M32, (st.2.1 + r.2.1) % M32,
   (st.2.2.1 + r.2.2.1) % M32, (st.2.2.2 + r.2.2.2) % M32)

/-- The 16 digest bytes of MD5 applied to a byte list. -/
def md5Digest (msg : List Nat) : List Nat :=
  let r := (toBlocks (md5Pad msg)).foldl md5Block
    (0x67452301, 0xefcdab89, 0x98badcfe, 0x10325476)
  leBytes4 r.1 ++ leBytes4 r.2.1 ++ leBytes4 r.2.2.1 ++ leBytes4 r.2.2.2

/-- Lowercase hexadecimal digit character for a value below 16: code
point 48 offsets the decimal digits, code point 87 offsets a to f. -/
def hexChar (n : Nat) : Char :=
  if n < 10 then Char.ofNat (48 + n) else Char.ofNat (87 + n)

/-- Two lowercase hex characters of one byte. -/
def byteHex (b : Nat) : List Char :=
  [hexChar ((b >>> 4) % 16), hexChar (b % 16)]

/-- Characters of the 32-character lowercase hex MD5 digest of a string,
as produced by digest applied with the hex encoding in the source. -/
def md5hexChars (s : String) : List Char :=
  (md5Digest (stringBytes s)).flatMap byteHex

/-- The hex MD5 digest of a string as a string. -/
def md5hex (s : String) : String := String.mk (md5hexChars s)

/-! ## Identity: generateSessionId and parseModelPreference
(src/utils/sessionManager.ts) -/

/-- generateSessionId from sessionManager.ts: the falsy check accepts only
the empty string; otherwise the first eight characters of the hex MD5
digest of the preference (hash.substring of the first 8 characters). -/
def generateSessionId (modelPreference : String) : String :=
  if modelPreference = "" then "default"
  else String.mk ((md5hexChars modelPreference).take 8)

/-- The split method of JS strings for a one-character separator,
executed on the character list: separators delimit groups, empty groups
included, and the empty string yields one empty group. -/
def jsSplitList (sep : Char) (l : List Char) : List (List Char) :=
  l.foldr
    (fun c acc =>
      match acc with
      | [] => [[c]]
      | g :: gs => if c = sep then [] :: g :: gs else (c :: g) :: gs)
    [[]]

/-- The split method of JS strings for a one-character separator. -/
def jsSplit (sep : Char) (s : String) : List String :=
  (jsSplitList sep s.data).map String.mk

/-- Whitespace test of the trim method of JS strings, on the ASCII
whitespace characters: space, tab, line feed, vertical tab, form feed
and carriage return. -/
def jsIsSpace (c : Char) : Bool :=
  c.toNat = 32 || (9 ≤ c.toNat && c.toNat ≤ 13)

/-- The trim method of JS strings: drop whitespace from both ends. -/
def jsTrim (s : String) : String :=
  String.mk (((s.data.dropWhile jsIsSpace).reverse.dropWhile jsIsSpace).reverse)

/-- Result record of parseModelPreference. -/
structure ModelPreference where
  provider : Option String := none
  model : Option String := none
  raw : String
deriving DecidableEq, Repr

/-- The single-comma-part case of parseModelPreference: exactly two
slash subparts split into provider and model, anything else is a bare
model holding the trimmed part. -/
def parseSinglePart (a preference : String) : ModelPreference :=
  match jsSplit '/' a with
  | [x, y] => { provider := some x, model := some y, raw := preference }
  | _ => { model := some a, raw := preference }

/-- parseModelPreference from sessionManager.ts: blank input gives a bare
raw record; two comma parts give provider and model; one comma part with
exactly two slash subparts splits on the slash; one comma part otherwise
is the model; three or more comma parts give a bare raw record. -/
def parseModelPreference (preference : String) : ModelPreference :=
  if preference = "" ∨ jsTrim preference = "" then { raw := "" }
  else
    match (jsSplit ',' preference).map jsTrim with
    | [a, b] => { provider := some a, model := some b, raw := preference }
    | [a] => parseSinglePart a preference
    | _ => { raw := preference }

/-! ## PortAllocator (src/utils/sessionManager.ts) -/

/-- Base port constant of sessionManager.ts. -/
def BASE_PORT : Nat := 3456

/-- Size of the probed port range in sessionManager.ts. -/
def MAX_PORT_RANGE : Nat := 100

/-- The probing loop of findAvailablePort: try ports one by one for the
given number of remaining candidates. The availability of a port
(binding and immediately releasing a throwaway localhost listener in the
source, where any bind error counts as unavailable) is abstracted as the
Bool-valued predicate avail. -/
def findAvailablePortAux (avail : Nat → Bool) : Nat → Nat → Option Nat
  | _, 0 => none
  | port, fuel + 1 =>
    if avail port then some port else findAvailablePortAux avail (port + 1) fuel

/-- findAvailablePort from sessionManager.ts: scan ports from startPort
for MAX_PORT_RANGE candidates; none models the thrown
no-available-ports error (PortExhausted). -/
def findAvailablePort (avail : Nat → Bool) (startPort : Nat) : Option Nat :=
  findAvailablePortAux avail startPort MAX_PORT_RANGE

/-! ## SessionRegistry: pid file and reference count file
(src/utils/sessionManager.ts)

The per-session files are explicit state: an Option-valued content, none
meaning the file does not exist. The reference count file is declared in
the external-interface section of the design to hold a raw non-negative
integer; its content is modelled as the parsed integer value, absent
file reading as zero exactly as parseInt combined with the zero fallback
does on a well-formed file. -/

/-- Per-session on-disk state: the pid file and the reference count file. -/
structure SessionFiles where
  pidFile : Option Int := none
  referenceCountFile : Option Int := none
deriving DecidableEq, Repr

/-- saveSessionPid (recordPid): write the pid file. -/
def saveSessionPid (s : SessionFiles) (pid : Int) : SessionFiles :=
  { s with pidFile := some pid }

/-- cleanupSessionPid: delete the pid file if present (unlink failures
are swallowed). -/
def cleanupSessionPid (s : SessionFiles) : SessionFiles :=
  { s with pidFile := none }

/-- Modelled from the spec: isProcessRunning of src/utils/processCheck.ts
is not part of the provided sources. Following the design document, the
liveness check asks the OS whether the recorded PID exists and reports a
boolean; it is abstracted here as the predicate alive.

isSessionRunning from sessionManager.ts: absent pid file means not
running; otherwise the parsed pid is probed through isProcessRunning.
The catch branch of the source, which deletes the pid file through
cleanupSessionPid, runs only when reading the pid file throws an
exception; a successful read of a pid whose process is dead returns
false without touching the file, which is why the returned state is the
input state in both reachable branches of this model. -/
def isSessionRunning (alive : Int → Bool) (s : SessionFiles) :
    Bool × SessionFiles :=
  match s.pidFile with
  | none => (false, s)
  | some pid => (alive pid, s)

/-- getSessionReferenceCount: absent file reads as zero, otherwise the
stored value. -/
def getSessionReferenceCount (s : SessionFiles) : Int :=
  s.referenceCountFile.getD 0

/-- incrementSessionReferenceCount: read current or zero, add one, write
back. -/
def incrementSessionReferenceCount (s : SessionFiles) : SessionFiles :=
  { s with referenceCountFile := some (s.referenceCountFile.getD 0 + 1) }

/-- decrementSessionReferenceCount: read current or zero, subtract one
flooring at zero, write back. -/
def decrementSessionReferenceCount (s : SessionFiles) : SessionFiles :=
  { s with referenceCountFile := some (max 0 (s.referenceCountFile.getD 0 - 1)) }

/-! ## MonitoringService data model (src/utils/monitoring.ts) -/

/-- Status field of a RequestLog. -/
inductive ReqStatus
  | pending
  | success
  | error
deriving DecidableEq, Repr

/-- One request entry of the monitoring service. The untyped metadata
field of the source (headers and body model echo) carries no behavior
and is omitted. -/
structure RequestLog where
  id : Nat
  timestamp : Int
  sessionId : String
  method : String
  path : String
  provider : Option String := none
  model : Option String := none
  inputTokens : Option Int := none
  outputTokens : Option Int := none
  duration : Option Int := none
  status : ReqStatus
  error : Option String := none
deriving DecidableEq, Repr

/-- Aggregate metrics of one session. The running average is kept in Rat,
the exact-arithmetic reading of the numeric expressions in the source. -/
structure SessionMetrics where
  sessionId : String
  startTime : Int
  requestCount : Nat
  totalInputTokens : Int
  totalOutputTokens : Int
  averageResponseTime : Rat
  errors : Nat
  providers : List (String × Nat)
  models : List (String × Nat)
deriving DecidableEq, Repr

/-- Events broadcast on the service emitter. -/
inductive MonEvent
  | requestStart (r : RequestLog)
  | requestUpdate (r : RequestLog)
  | requestEnd (r : Option RequestLog)
  | metricsUpdate (m : SessionMetrics)
  | logsCleared (sessionId : Option String)
  | metricsReset (sessionId : Option String)
deriving DecidableEq, Repr

/-- Whole state of the monitoring service: the in-memory request map and
metrics map (JS Map objects, kept in insertion order), the per-day
on-disk request log (append-only), the persisted metrics file
(overwritten as a whole), and the list of emitted events. -/
structure MonState where
  requests : List (Nat × RequestLog)
  sessionMetricsMap : List (String × SessionMetrics)
  diskLog : List RequestLog
  metricsFile : Option (List SessionMetrics)
  events : List MonEvent
deriving DecidableEq, Repr

/-- The service before any request. -/
def emptyMonState : MonState :=
  { requests := [], sessionMetricsMap := [], diskLog := [],
    metricsFile := none, events := [] }

/-- In-memory capacity of the request map. -/
def maxLogsInMemory : Nat := 1000

/-- JS Map lookup on an insertion-ordered association list. -/
def mapLookup {κ α : Type} [DecidableEq κ] (k : κ) :
    List (κ × α) → Option α
  | [] => none
  | kv :: rest => if kv.1 = k then some kv.2 else mapLookup k rest

/-- JS Map set: replace in place if the key exists, else append. -/
def mapSet {κ α : Type} [DecidableEq κ] (k : κ) (v : α) :
    List (κ × α) → List (κ × α)
  | [] => [(k, v)]
  | kv :: rest => if kv.1 = k then (k, v) :: rest else kv :: mapSet k v rest

/-- JS Map delete. -/
def mapDelete {κ α : Type} [DecidableEq κ] (k : κ)
    (m : List (κ × α)) : List (κ × α) :=
  m.filter (fun kv => ¬ kv.1 = k)

/-- JS Map values in insertion order. -/
def mapValues {κ α : Type} (m : List (κ × α)) : List α := m.map (·.2)

/-- Truthiness of an optional JS number: present and nonzero. -/
def jsTruthyInt (o : Option Int) : Bool :=
  match o with
  | none => false
  | some v => v != 0

/-- Truthiness of an optional JS string: present and nonempty. -/
def jsTruthyStr (o : Option String) : Bool :=
  match o with
  | none => false
  | some s => s != ""

/-- Bump of one counter of a plain-object usage record:
missing key reads as zero, then add one. -/
def recordBump (k : String) (m : List (String × Nat)) : List (String × Nat) :=
  mapSet k ((mapLookup k m).getD 0 + 1) m

/-- Fresh metrics record created on first update for a session. -/
def freshMetrics (sid : String) (now : Int) : SessionMetrics :=
  { sessionId := sid, startTime := now, requestCount := 0,
    totalInputTokens := 0, totalOutputTokens := 0, averageResponseTime := 0,
    errors := 0, providers := [], models := [] }

/-- The mutation body of updateSessionMetrics on one metrics record:
increment the request count, count errors, add truthy token counts, fold
a truthy duration of a success entry into the running average dividing
by the already-incremented request count, and bump truthy provider and
model usage counters. -/
def applyMetricsEntry (r : RequestLog) (m : SessionMetrics) : SessionMetrics :=
  let rc := m.requestCount + 1
  { m with
    requestCount := rc,
    errors := if r.status = .error then m.errors + 1 else m.errors,
    totalInputTokens :=
      if jsTruthyInt r.inputTokens then
        m.totalInputTokens + r.inputTokens.getD 0
      else m.totalInputTokens,
    totalOutputTokens :=
      if jsTruthyInt r.outputTokens then
        m.totalOutputTokens + r.outputTokens.getD 0
      else m.totalOutputTokens,
    averageResponseTime :=
      if jsTruthyInt r.duration && decide (r.status = .success) then
        (m.averageResponseTime * ((rc - 1 : Nat) : Rat)
          + ((r.duration.getD 0 : Int) : Rat)) / (rc : Rat)
      else m.averageResponseTime,
    providers :=
      if jsTruthyStr r.provider then
        recordBump (r.provider.getD "") m.providers
      else m.providers,
    models :=
      if jsTruthyStr r.model then
        recordBump (r.model.getD "") m.models
      else m.models }

/-- Append an emitted event. -/
def emitEvent (e : MonEvent) (st : MonState) : MonState :=
  { st with events := st.events ++ [e] }

/-- persistMetrics: overwrite the metrics file with all metrics values
(write failures are logged and swallowed in the source). -/
def persistMetrics (st : MonState) : MonState :=
  { st with metricsFile := some (mapValues st.sessionMetricsMap) }

/-- persistRequestLog: append one entry to the per-day on-disk log. -/
def persistRequestLog (r : RequestLog) (st : MonState) : MonState :=
  { st with diskLog := st.diskLog ++ [r] }

/-- updateSessionMetrics from monitoring.ts: fetch or lazily create the
metrics record of the sessionId of the entry, mutate it through
applyMetricsEntry, persist the metrics file, and emit a metrics update. -/
def updateSessionMetrics (r : RequestLog) (now : Int) (st : MonState) :
    MonState :=
  let m0 := (mapLookup r.sessionId st.sessionMetricsMap).getD
    (freshMetrics r.sessionId now)
  let m := applyMetricsEntry r m0
  let st1 := { st with
    sessionMetricsMap := mapSet r.sessionId m st.sessionMetricsMap }
  emitEvent (.metricsUpdate m) (persistMetrics st1)

/-- A Partial RequestLog merged by Object.assign in updateRequest. A none
field means the key is absent. The error field of endRequest is always a
present key whose value may itself be undefined, hence the nested
Option. -/
structure ReqUpdate where
  provider : Option String := none
  model : Option String := none
  inputTokens : Option Int := none
  outputTokens : Option Int := none
  duration : Option Int := none
  status : Option ReqStatus := none
  error : Option (Option String) := none
deriving DecidableEq, Repr

/-- Object.assign of a partial update onto a stored entry. -/
def applyUpdate (r : RequestLog) (u : ReqUpdate) : RequestLog :=
  { r with
    provider := u.provider <|> r.provider,
    model := u.model <|> r.model,
    inputTokens := u.inputTokens <|> r.inputTokens,
    outputTokens := u.outputTokens <|> r.outputTokens,
    duration := u.duration <|> r.duration,
    status := u.status.getD r.status,
    error := match u.error with
      | some e => e
      | none => r.error }

/-- updateRequest from monitoring.ts: silently do nothing when the id is
unknown; otherwise merge the update in place, recompute the session
metrics when the sessionId is truthy, emit a request update, and append
the entry to the on-disk log when the updated status is terminal. -/
def updateRequest (rid : Nat) (u : ReqUpdate) (now : Int) (st : MonState) :
    MonState :=
  match mapLookup rid st.requests with
  | none => st
  | some r =>
    let r2 := applyUpdate r u
    let st1 := { st with requests := mapSet rid r2 st.requests }
    let st2 := if jsTruthyStr (some r2.sessionId) then
        updateSessionMetrics r2 now st1
      else st1
    let st3 := emitEvent (.requestUpdate r2) st2
    if u.status = some .success ∨ u.status = some .error then
      persistRequestLog r2 st3
    else st3

/-- Token usage block of a worker response body. -/
structure UsagePayload where
  input_tokens : Int
  output_tokens : Int
deriving DecidableEq, Repr

/-- The response body shape endRequest inspects. -/
structure ResponseBody where
  model : Option String := none
  usage : Option UsagePayload := none
deriving DecidableEq, Repr

/-- endRequest from monitoring.ts: silently do nothing when the id is
unknown; otherwise compute the duration from the entry timestamp to now,
derive the status from presence of an error, extract provider and model
from a truthy response model string (two comma parts give both, anything
else is a bare model), copy token usage when present, delegate to
updateRequest, and emit a request end event carrying the updated entry.
The response argument stands for the body of the response object of the
source. -/
def endRequest (rid : Nat) (response : Option ResponseBody)
    (err : Option String) (now : Int) (st : MonState) : MonState :=
  match mapLookup rid st.requests with
  | none => st
  | some r =>
    let duration := now - r.timestamp
    let u0 : ReqUpdate :=
      { duration := some duration,
        status := some (if err.isSome then .error else .success),
        error := some err }
    let u1 :=
      match response with
      | some body =>
        match body.model with
        | some mstr =>
          if mstr ≠ "" then
            match jsSplit ',' mstr with
            | [p, q] => { u0 with provider := some p, model := some q }
            | _ => { u0 with model := some mstr }
          else u0
        | none => u0
      | none => u0
    let u2 :=
      match response with
      | some body =>
        match body.usage with
        | some us =>
          { u1 with inputTokens := some us.input_tokens,
                    outputTokens := some us.output_tokens }
        | none => u1
      | none => u1
    let st1 := updateRequest rid u2 now st
    emitEvent (.requestEnd (mapLookup rid st1.requests)) st1

/-- Stable ascending insertion by timestamp, the sort comparator of
archiveOldLogs. -/
def insertByTs (x : Nat × RequestLog) :
    List (Nat × RequestLog) → List (Nat × RequestLog)
  | [] => [x]
  | y :: ys =>
    if x.2.timestamp ≤ y.2.timestamp then x :: y :: ys
    else y :: insertByTs x ys

/-- Stable sort of the request entries by ascending timestamp. -/
def sortByTs (l : List (Nat × RequestLog)) : List (Nat × RequestLog) :=
  l.foldr insertByTs []

/-- archiveOldLogs from monitoring.ts: take the 100 oldest entries by
timestamp and, in that order, append each to the on-disk log and delete
it from the in-memory map. -/
def archiveOldLogs (st : MonState) : MonState :=
  let oldest := (sortByTs st.requests).take 100
  oldest.foldl
    (fun st kv =>
      { st with diskLog := st.diskLog ++ [kv.2],
                requests := mapDelete kv.1 st.requests })
    st

/-- startRequest from monitoring.ts: store a fresh pending entry under a
new request id (id generation and the clock are passed in), emit a
request start event, and archive the oldest entries when the map has
grown past capacity. A falsy sessionId of the incoming request becomes
the literal default. -/
def startRequest (rid : Nat) (now : Int) (sessionId method path : String)
    (st : MonState) : MonState :=
  let sid := if sessionId = "" then "default" else sessionId
  let r : RequestLog :=
    { id := rid, timestamp := now, sessionId := sid, method := method,
      path := path, status := .pending }
  let st1 := { st with requests := mapSet rid r st.requests }
  let st2 := emitEvent (.requestStart r) st1
  if st2.requests.length > maxLogsInMemory then archiveOldLogs st2 else st2

/-- Stable descending insertion by timestamp, the sort comparator of
getRecentRequests. -/
def insertByTsDesc (x : RequestLog) : List RequestLog → List RequestLog
  | [] => [x]
  | y :: ys =>
    if y.timestamp ≤ x.timestamp then x :: y :: ys
    else y :: insertByTsDesc x ys

/-- Stable sort of request entries by descending timestamp. -/
def sortByTsDesc (l : List RequestLog) : List RequestLog :=
  l.foldr insertByTsDesc []

/-- Truthy check and comparison of the optional session filter, as the
short-circuit filter condition of the source: a falsy filter matches
everything. -/
def sessionFilterMatch (f : Option String) (sid : String) : Bool :=
  match f with
  | none => true
  | some fs => fs == "" || sid == fs

/-- getRecentRequests from monitoring.ts: filter by the optional session
id, sort by descending timestamp, and keep the first limit entries. -/
def getRecentRequests (f : Option String) (limit : Nat) (st : MonState) :
    List RequestLog :=
  (sortByTsDesc ((mapValues st.requests).filter
    (fun r => sessionFilterMatch f r.sessionId))).take limit

/-! ## streamLogs subscriber semantics (src/utils/monitoring.ts)

A websocket subscriber is modelled by the frames it is sent. streamLogs
first sends the initial batch, then the current metrics snapshot, then
registers four listeners on the service emitter; the close handler
removes exactly those four. Emissions after subscription are an explicit
schedule of emitter events interleaved with the close signal. -/

/-- Frames written to the subscriber socket. -/
inductive Frame
  | initial (logs : List RequestLog)
  | log (r : RequestLog)
  | metricsOne (m : SessionMetrics)
  | metricsAll (ms : List SessionMetrics)
deriving DecidableEq, Repr

/-- The two handler functions streamLogs registers. -/
inductive HandlerKind
  | sendLog
  | sendMetrics
deriving DecidableEq, Repr

/-- Emitter event names streamLogs listens on. -/
inductive EvName
  | reqStart
  | reqUpdate
  | reqEnd
  | metricsUpd
deriving DecidableEq, Repr

/-- The four listener registrations performed by streamLogs. -/
def streamListeners : List (EvName × HandlerKind) :=
  [(.reqStart, .sendLog), (.reqUpdate, .sendLog),
   (.reqEnd, .sendLog), (.metricsUpd, .sendMetrics)]

/-- An emitter broadcast: a request event carrying an entry, or a
metrics update carrying a metrics record. -/
inductive Emitted
  | logEvent (n : EvName) (r : RequestLog)
  | metricsEvent (m : SessionMetrics)
deriving DecidableEq, Repr

/-- Name under which an event is broadcast. -/
def emittedName : Emitted → EvName
  | .logEvent n _ => n
  | .metricsEvent _ => .metricsUpd

/-- Frames one registered listener writes for one broadcast: the sendLog
handler forwards matching request entries, the sendMetrics handler
forwards matching metrics records. -/
def deliverOne (f : Option String) (l : EvName × HandlerKind)
    (e : Emitted) : List Frame :=
  if l.1 = emittedName e then
    match l.2, e with
    | .sendLog, .logEvent _ r =>
      if sessionFilterMatch f r.sessionId then [.log r] else []
    | .sendMetrics, .metricsEvent m =>
      if sessionFilterMatch f m.sessionId then [.metricsOne m] else []
    | _, _ => []
  else []

/-- Frames the whole listener list writes for one broadcast. -/
def deliver (f : Option String) (ls : List (EvName × HandlerKind))
    (e : Emitted) : List Frame :=
  ls.flatMap (fun l => deliverOne f l e)

/-- One item of the post-subscription schedule: an emitter broadcast or
the close signal of the subscriber socket. -/
inductive WsAction
  | emitted (e : Emitted)
  | close
deriving DecidableEq, Repr

/-- Live frames of a schedule: broadcasts are delivered through the
currently registered listeners; the close handler removes the four
streamLogs registrations. -/
def runWs (f : Option String) : List WsAction →
    List (EvName × HandlerKind) → List Frame
  | [], _ => []
  | .emitted e :: rest, ls => deliver f ls e ++ runWs f rest ls
  | .close :: rest, ls =>
    runWs f rest (ls.filter (fun l => !(streamListeners.contains l)))

/-- Current-metrics snapshot frame streamLogs sends right after the
initial batch: a single record for a truthy filter that has metrics,
nothing for a truthy filter without metrics, the full list otherwise. -/
def metricsSnapshotFrames (st : MonState) (f : Option String) : List Frame :=
  if jsTruthyStr f then
    match mapLookup (f.getD "") st.sessionMetricsMap with
    | some m => [Frame.metricsOne m]
    | none => []
  else [Frame.metricsAll (mapValues st.sessionMetricsMap)]

/-- All frames a streamLogs subscriber receives: the initial batch of at
most 50 recent matching entries, the metrics snapshot, then the live
frames of the schedule starting from the four registrations. -/
def streamLogsFrames (st : MonState) (f : Option String)
    (sched : List WsAction) : List Frame :=
  Frame.initial (getRecentRequests f 50 st)
    :: metricsSnapshotFrames st f
    ++ runWs f sched streamListeners

/-! ## The session stop endpoint (src/server.ts)

World state for the stop handler: the session directories on disk and
the OS process table. Liveness can change between the active-session
enumeration and the signal, so the process table is sampled twice; the
permission check of the OS is a further predicate. The sessions list
carries, per session directory, whether the descriptor file parses, and
the two per-session files. -/

/-- One session directory as the stop endpoint sees it. -/
structure SessionEntry where
  sessionId : String
  configPresent : Bool := true
  pidFile : Option Int := none
  referenceCountFile : Option Int := none
deriving DecidableEq, Repr

/-- World of the stop endpoint. -/
structure StopWorld where
  sessions : List SessionEntry
  aliveAtList : Int → Bool
  aliveAtKill : Int → Bool
  canSignal : Int → Bool

/-- Outcome of the stop endpoint, abstracting the HTTP reply: a 200 JSON
body with its success flag and message, or an error status. -/
inductive StopResponse
  | ok (success : Bool) (message : String)
  | notFound
  | forbidden
  | serverError
deriving DecidableEq, Repr

/-- getAllActiveSessions at the enumeration instant: sessions whose
descriptor parses and whose pid file holds a pid that is alive
(isSessionRunning with the spec-modelled process probe). -/
def getAllActiveSessions (w : StopWorld) : List SessionEntry :=
  w.sessions.filter (fun s =>
    s.configPresent &&
      match s.pidFile with
      | some pid => w.aliveAtList pid
      | none => false)

/-- Delete the pid file of the named session. -/
def cleanupPidIn (ss : List SessionEntry) (sid : String) : List SessionEntry :=
  ss.map (fun s => if s.sessionId = sid then { s with pidFile := none } else s)

/-- Delete the reference count file of the named session. -/
def clearRefCountIn (ss : List SessionEntry) (sid : String) :
    List SessionEntry :=
  ss.map (fun s =>
    if s.sessionId = sid then { s with referenceCountFile := none } else s)

/-- The stop endpoint of server.ts: look the session up among the
currently active sessions (404 when absent); read its pid (a no-pid
session reports a non-success 200); send SIGTERM: a vanished process
(ESRCH) deletes the pid file and reports an idempotent success, a
permission failure (EPERM) reports 403 leaving both files in place, and
a delivered signal is followed by the swallowed zero-probe-and-SIGKILL
escalation, deletion of the pid file, and deletion of the reference
count file. -/
def stopSession (w : StopWorld) (sessionId : String) :
    StopResponse × List SessionEntry :=
  match (getAllActiveSessions w).find? (fun s => s.sessionId == sessionId) with
  | none => (.notFound, w.sessions)
  | some s =>
    match s.pidFile with
    | none =>
      (.ok false ("Session " ++ sessionId ++ " is not running (no PID found)"),
        w.sessions)
    | some pid =>
      if w.aliveAtKill pid then
        if w.canSignal pid then
          (.ok true ("Session " ++ sessionId ++ " stopped successfully"),
            clearRefCountIn (cleanupPidIn w.sessions sessionId) sessionId)
        else
          (.forbidden, w.sessions)
      else
        (.ok true ("Session " ++ sessionId ++ " was already stopped"),
          cleanupPidIn w.sessions sessionId)

/-! ## Spec-side comparison definitions -/

/-- Modelled from the spec: the batch recomputation of the average
response time, the arithmetic mean of the durations of all entries of
the session recorded with status success (the comparator the invariant
section of the design prescribes). -/
def specBatchAverage (sid : String) (st : MonState) : Rat :=
  let ds := (mapValues st.requests).filterMap
    (fun r => if r.sessionId = sid ∧ r.status = .success then r.duration
      else none)
  ((ds.map (fun d => (d : Rat))).sum) / (ds.length : Rat)

/-- Fold of metric updates, the repeated updateSessionMetrics calls a
sequence of request completions produces for the incremental-versus-
batch comparison. -/
def runMetricsUpdates (rs : List RequestLog) (now : Int) (st : MonState) :
    MonState :=
  rs.foldl (fun st r => updateSessionMetrics r now st) st

/-! ## Concrete scenarios and feed helpers used by the theorems -/

/-- Lowercase hexadecimal digit predicate on characters. -/
def isHexDigitChar (c : Char) : Bool :=
  (48 ≤ c.toNat && c.toNat ≤ 57) || (97 ≤ c.toNat && c.toNat ≤ 102)

/-- The pending entry startRequest stores for request number i of the
capacity scenario: id and timestamp are the feed counter, the session id
of a falsy incoming session id is the literal default. -/
def mkStartEntry (i : Nat) : RequestLog :=
  { id := i, timestamp := (i : Int), sessionId := "default", method := "GET",
    path := "/v1", status := .pending }

/-- Request-map segment holding entries numbered a to a + k - 1. -/
def startEntries (a k : Nat) : List (Nat × RequestLog) :=
  (List.range' a k).map (fun i => (i, mkStartEntry i))

/-- Feed cnt fresh requests with consecutive ids and timestamps through
startRequest, starting at counter value start. -/
def feedFrom (start cnt : Nat) (st : MonState) : MonState :=
  (List.range' start cnt).foldl
    (fun st i => startRequest i (i : Int) "" "GET" "/v1" st) st

/-- Feed n requests through startRequest from the empty service. -/
def feedStartRequests (n : Nat) : MonState :=
  (List.range n).foldl
    (fun st i => startRequest i (i : Int) "" "GET" "/v1" st) emptyMonState

/-- Trace of an error completion followed by a success of duration 100
for session s: request 0 starts at 0 and ends in error at 5, request 1
starts at 10 and ends successfully at 110. -/
def c2ErrorTrace : MonState :=
  endRequest 1 none none 110
    (startRequest 1 10 "s" "POST" "/v1/messages"
      (endRequest 0 none (some "boom") 5
        (startRequest 0 0 "s" "POST" "/v1/messages" emptyMonState)))

/-- Trace of three successful completions of durations 100, 200 and 300
for session s, each request ended once through endRequest. -/
def c2SuccessTrace : MonState :=
  endRequest 2 none none 2300
    (startRequest 2 2000 "s" "POST" "/v1/messages"
      (endRequest 1 none none 1200
        (startRequest 1 1000 "s" "POST" "/v1/messages"
          (endRequest 0 none none 100
            (startRequest 0 0 "s" "POST" "/v1/messages" emptyMonState)))))

/-- Sum, in Rat, of the recorded durations of a list of entries. -/
def durationSumRat (rs : List RequestLog) : Rat :=
  ((rs.filterMap (fun r => r.duration)).map (fun d => (d : Rat))).sum

/-- A single successful entry of duration 100 for the metrics-mean
witness. -/
def c2WitnessLog : RequestLog :=
  { id := 9, timestamp := 0, sessionId := "w", method := "POST", path := "/p",
    duration := some 100, status := .success }

/-- World with one session directory whose pid file holds pid 42 while
the process table reports that pid dead already at enumeration time. -/
def c8DeadWorld : StopWorld :=
  { sessions := [⟨"s1", true, some 42, some 2⟩],
    aliveAtList := fun _ => false,
    aliveAtKill := fun _ => false,
    canSignal := fun _ => true }

/-- World whose process dies between the enumeration and the signal. -/
def c8RaceWorld : StopWorld :=
  { sessions := [⟨"s1", true, some 42, some 2⟩],
    aliveAtList := fun _ => true,
    aliveAtKill := fun _ => false,
    canSignal := fun _ => true }

/-- World whose process is alive but cannot be signalled. -/
def c8PermWorld : StopWorld :=
  { sessions := [⟨"s1", true, some 42, some 2⟩],
    aliveAtList := fun _ => true,
    aliveAtKill := fun _ => true,
    canSignal := fun _ => false }

/-- World whose process is alive and signalled successfully. -/
def c8KillWorld : StopWorld :=
  { sessions := [⟨"s1", true, some 42, some 2⟩],
    aliveAtList := fun _ => true,
    aliveAtKill := fun _ => true,
    canSignal := fun _ => true }

/-! ## Helper lemmas -/

theorem length_flatMap_byteHex (l : List Nat) :
    (l.flatMap byteHex).length = 2 * l.length := by
  induction l with
  | nil => rfl
  | cons b bs ih =>
    rw [List.flatMap_cons, List.length_append, ih]
    show 2 + 2 * bs.length = 2 * (bs.length + 1)
    omega

theorem md5Digest_length (m : List Nat) : (md5Digest m).length = 16 := by
  simp [md5Digest, leBytes4]

theorem md5hexChars_length (s : String) : (md5hexChars s).length = 32 := by
  rw [md5hexChars, length_flatMap_byteHex, md5Digest_length]

theorem hexChar_isHex : ∀ n, n < 16 → isHexDigitChar (hexChar n) = true := by
  decide

theorem byteHex_isHex {b : Nat} {c : Char} (hc : c ∈ byteHex b) :
    isHexDigitChar c = true := by
  simp only [byteHex, List.mem_cons, List.mem_singleton,
    List.not_mem_nil, or_false] at hc
  rcases hc with h | h <;> subst h <;> exact hexChar_isHex _ (Nat.mod_lt _ (by decide))

theorem generateSessionId_hex8 (p : String) (hp : p ≠ "") :
    (generateSessionId p).length = 8
      ∧ ∀ c ∈ (generateSessionId p).data, isHexDigitChar c = true := by
  unfold generateSessionId
  rw [if_neg hp]
  constructor
  · show ((md5hexChars p).take 8).length = 8
    simp [List.length_take, md5hexChars_length]
  · intro c hc
    have hc2 : c ∈ md5hexChars p := List.take_subset _ _ hc
    simp only [md5hexChars, List.mem_flatMap] at hc2
    obtain ⟨b, _, hcb⟩ := hc2
    exact byteHex_isHex hcb

/-! ## Claim C1: generateSessionId -/

/-- C1 (corrected): only the empty preference maps to the literal
default; every nonempty preference, whitespace-only ones included, maps
to the first eight characters of the lowercase hex MD5 digest. The
mapping is a pure Lean function, hence deterministic and stable. -/
theorem generateSessionId_spec (p : String) :
    (p = "" → generateSessionId p = "default")
      ∧ (p ≠ "" → (generateSessionId p).length = 8
          ∧ ∀ c ∈ (generateSessionId p).data, isHexDigitChar c = true) := by
  constructor
  · intro h
    subst h
    rfl
  · intro h
    exact generateSessionId_hex8 p h

/-- C1 witness: the empty preference gives the default id and a concrete
nonempty preference gives an 8 character id. -/
theorem generateSessionId_spec_witness :
    generateSessionId "" = "default"
      ∧ (generateSessionId "openrouter,gpt-4").length = 8 :=
  ⟨(generateSessionId_spec "").1 rfl,
    ((generateSessionId_spec "openrouter,gpt-4").2 (by decide)).1⟩

/-- C1 counterexample: the whitespace-only preference of three spaces
does not map to the literal default, against the claimed blank-input
rule; its id is an 8 character digest while the literal has 7
characters. -/
theorem generateSessionId_blank_not_default :
    generateSessionId "   " ≠ "default" := by
  intro h
  have h8 := (generateSessionId_hex8 "   " (by decide)).1
  rw [h] at h8
  exact absurd h8 (by decide)

/-! ## Claim C3: parseModelPreference -/

/-- C3 (corrected): parsing is total; a non-blank preference with two
comma parts yields the trimmed provider and model; one comma part with
exactly two slash subparts splits on the slash; one comma part with any
other number of slash subparts is a bare model, the trimmed part; three
or more comma parts yield neither provider nor model, only the raw
string. -/
theorem parseModelPreference_spec :
    (∀ s a b, jsTrim s ≠ "" →
        ((jsSplit ',' s).map jsTrim) = [a, b] →
        parseModelPreference s
          = { provider := some a, model := some b, raw := s })
      ∧ (∀ s a x y, jsTrim s ≠ "" →
          ((jsSplit ',' s).map jsTrim) = [a] →
          jsSplit '/' a = [x, y] →
          parseModelPreference s
            = { provider := some x, model := some y, raw := s })
      ∧ (∀ s a, jsTrim s ≠ "" →
          ((jsSplit ',' s).map jsTrim) = [a] →
          (jsSplit '/' a).length ≠ 2 →
          parseModelPreference s = { model := some a, raw := s })
      ∧ (∀ s, jsTrim s ≠ "" →
          3 ≤ ((jsSplit ',' s).map jsTrim).length →
          parseModelPreference s = { raw := s }) := by
  have hne : ∀ s : String, jsTrim s ≠ "" → ¬ (s = "" ∨ jsTrim s = "") := by
    rintro s hs (rfl | h)
    · exact hs rfl
    · exact hs h
  refine ⟨?_, ?_, ?_, ?_⟩
  · intro s a b hs hsplit
    unfold parseModelPreference
    rw [if_neg (hne s hs), hsplit]
  · intro s a x y hs hsplit hsub
    unfold parseModelPreference
    rw [if_neg (hne s hs), hsplit]
    show parseSinglePart a s = _
    unfold parseSinglePart
    rw [hsub]
  · intro s a hs hsplit hsub
    unfold parseModelPreference
    rw [if_neg (hne s hs), hsplit]
    show parseSinglePart a s = _
    unfold parseSinglePart
    rcases hm : jsSplit '/' a with _ | ⟨x, _ | ⟨y, _ | ⟨z, rest⟩⟩⟩
    · rfl
    · rfl
    · rw [hm] at hsub
      simp at hsub
    · rfl
  · intro s hs hlen
    unfold parseModelPreference
    rw [if_neg (hne s hs)]
    rcases hm : (jsSplit ',' s).map jsTrim with _ | ⟨a, _ | ⟨b, _ | ⟨c, rest⟩⟩⟩
    · rfl
    · rw [hm] at hlen
      simp at hlen
    · rw [hm] at hlen
      simp at hlen
    · rfl

/-- C3 witness: the three parse examples of the design document. -/
theorem parseModelPreference_spec_witness :
    parseModelPreference "openrouter,gpt-4"
        = ⟨some "openrouter", some "gpt-4", "openrouter,gpt-4"⟩
      ∧ parseModelPreference "openrouter/gpt-4"
        = ⟨some "openrouter", some "gpt-4", "openrouter/gpt-4"⟩
      ∧ parseModelPreference "gpt-4"
        = ⟨none, some "gpt-4", "gpt-4"⟩ :=
  ⟨parseModelPreference_spec.1 "openrouter,gpt-4" "openrouter" "gpt-4"
      (by decide) (by decide),
    parseModelPreference_spec.2.1 "openrouter/gpt-4" "openrouter/gpt-4"
      "openrouter" "gpt-4" (by decide) (by decide) (by decide),
    parseModelPreference_spec.2.2.1 "gpt-4" "gpt-4" (by decide) (by decide)
      (by decide)⟩

/-- C3 counterexample: a string of three comma parts parses to neither
provider nor model, not to a record with the whole string as model as
the claimed unparsable-input rule states. -/
theorem parseModelPreference_three_parts :
    parseModelPreference "a,b,c" = ⟨none, none, "a,b,c"⟩
      ∧ (parseModelPreference "a,b,c").model ≠ some "a,b,c" := by
  decide

/-! ## Claim C5: findAvailablePort -/

theorem findAvailablePortAux_some (avail : Nat → Bool) :
    ∀ (fuel port p : Nat), findAvailablePortAux avail port fuel = some p →
      port ≤ p ∧ p < port + fuel ∧ avail p = true
        ∧ ∀ q, port ≤ q → q < p → avail q = false := by
  intro fuel
  induction fuel with
  | zero =>
    intro port p h
    exact absurd h (by simp [findAvailablePortAux])
  | succ n ih =>
    intro port p h
    simp only [findAvailablePortAux] at h
    by_cases hav : avail port
    · rw [if_pos hav] at h
      obtain rfl : port = p := by simpa using h
      exact ⟨le_refl _, by omega, hav, fun q h1 h2 => by omega⟩
    · rw [if_neg hav] at h
      obtain ⟨h1, h2, h3, h4⟩ := ih (port + 1) p h
      refine ⟨by omega, by omega, h3, fun q hq1 hq2 => ?_⟩
      by_cases hq : q = port
      · subst hq
        simpa using hav
      · exact h4 q (by omega) hq2

theorem findAvailablePortAux_none (avail : Nat → Bool) :
    ∀ (fuel port : Nat), findAvailablePortAux avail port fuel = none ↔
      ∀ q, port ≤ q → q < port + fuel → avail q = false := by
  intro fuel
  induction fuel with
  | zero =>
    intro port
    constructor
    · intro _ q h1 h2
      omega
    · intro _
      rfl
  | succ n ih =>
    intro port
    simp only [findAvailablePortAux]
    by_cases hav : avail port
    · rw [if_pos hav]
      constructor
      · intro h
        exact absurd h (by simp)
      · intro h
        exact absurd (h port (le_refl _) (by omega)) (by simp [hav])
    · rw [if_neg hav, ih]
      constructor
      · intro h q h1 h2
        by_cases hq : q = port
        · subst hq
          simpa using hav
        · exact h q (by omega) (by omega)
      · intro h q h1 h2
        exact h q (by omega) (by omega)

/-- C5 (confirmed): a returned port is the first bindable port in the
window of 100 candidates from the start port, and the PortExhausted
failure arises exactly when every candidate of the window is occupied;
for start port 3456 a returned port therefore lies in the range from
3456 below 3556. -/
theorem findAvailablePort_spec (avail : Nat → Bool) (s : Nat) :
    (∀ p, findAvailablePort avail s = some p →
        s ≤ p ∧ p < s + 100 ∧ avail p = true
          ∧ ∀ q, s ≤ q → q < p → avail q = false)
      ∧ (findAvailablePort avail s = none ↔
          ∀ q, s ≤ q → q < s + 100 → avail q = false) := by
  constructor
  · intro p h
    exact findAvailablePortAux_some avail MAX_PORT_RANGE s p h
  · exact findAvailablePortAux_none avail MAX_PORT_RANGE s

/-- C5 witness: with only port 3460 bindable the scan from 3456 returns
3460, inside the claimed window, and with no port bindable it fails. -/
theorem findAvailablePort_spec_witness :
    (3456 ≤ 3460 ∧ 3460 < 3456 + 100 ∧ (fun p => p == 3460) 3460 = true
        ∧ ∀ q, 3456 ≤ q → q < 3460 → (fun p => p == 3460) q = false)
      ∧ findAvailablePort (fun _ => false) 3456 = none :=
  ⟨(findAvailablePort_spec (fun p => p == 3460) 3456).1 3460 (by decide),
    (findAvailablePort_spec (fun _ => false) 3456).2.mpr
      (fun _ _ _ => rfl)⟩

/-! ## Claim C6: reference count operations -/

theorem getRef_inc (s : SessionFiles) :
    getSessionReferenceCount (incrementSessionReferenceCount s)
      = getSessionReferenceCount s + 1 := by
  simp [getSessionReferenceCount, incrementSessionReferenceCount]

theorem getRef_inc_iterate (n : Nat) (s : SessionFiles) :
    getSessionReferenceCount (incrementSessionReferenceCount^[n] s)
      = getSessionReferenceCount s + n := by
  induction n generalizing s with
  | zero => simp
  | succ k ih =>
    rw [Function.iterate_succ_apply, ih, getRef_inc]
    push_cast
    ring

theorem getRef_dec_iterate :
    ∀ (n : Nat) (s : SessionFiles) (g : Int), 0 ≤ g →
      getSessionReferenceCount s = g + n →
      getSessionReferenceCount (decrementSessionReferenceCount^[n] s) = g := by
  intro n
  induction n with
  | zero =>
    intro s g _ h
    simpa using h
  | succ k ih =>
    intro s g hg h
    rw [Function.iterate_succ_apply]
    apply ih _ g hg
    show (decrementSessionReferenceCount s).referenceCountFile.getD 0 = g + k
    simp only [decrementSessionReferenceCount, Option.getD_some]
    have hs : s.referenceCountFile.getD 0 = g + (k + 1 : Nat) := h
    rw [hs]
    rw [max_eq_right (by push_cast; omega)]
    push_cast
    ring

/-- C6 (confirmed): starting from a reference count file holding a
non-negative value (the declared file format) or absent, n increments
followed by n decrements restore the value read back, and a decrement
read from zero stays at zero. -/
theorem referenceCount_spec (s : SessionFiles) (n : Nat)
    (h : 0 ≤ getSessionReferenceCount s) :
    getSessionReferenceCount
        (decrementSessionReferenceCount^[n]
          (incrementSessionReferenceCount^[n] s))
      = getSessionReferenceCount s
      ∧ (getSessionReferenceCount s = 0 →
          getSessionReferenceCount (decrementSessionReferenceCount s) = 0) := by
  constructor
  · exact getRef_dec_iterate n _ _ h (getRef_inc_iterate n s)
  · intro h0
    show (decrementSessionReferenceCount s).referenceCountFile.getD 0 = 0
    simp only [decrementSessionReferenceCount, Option.getD_some]
    have hs : s.referenceCountFile.getD 0 = 0 := h0
    rw [hs]
    decide

/-- C6 witness: three increments and three decrements from an absent
file both read back as zero, and a decrement from zero reads zero. -/
theorem referenceCount_spec_witness :
    getSessionReferenceCount
        (decrementSessionReferenceCount^[3]
          (incrementSessionReferenceCount^[3]
            { pidFile := none, referenceCountFile := none }))
      = getSessionReferenceCount
          { pidFile := none, referenceCountFile := none }
      ∧ (getSessionReferenceCount
            { pidFile := none, referenceCountFile := none } = 0 →
          getSessionReferenceCount
              (decrementSessionReferenceCount
                { pidFile := none, referenceCountFile := none })
            = 0) :=
  referenceCount_spec { pidFile := none, referenceCountFile := none } 3
    (by decide)

/-! ## Claim C7: liveness check and stale pid files -/

/-- C7 (corrected): when the pid file holds a pid whose process is dead,
isSessionRunning reports not running and leaves the state, the pid file
included, unchanged; the source deletes the pid file only in the catch
branch, reached when reading the pid file throws, not when the process
has merely died. -/
theorem isSessionRunning_dead (alive : Int → Bool) (s : SessionFiles)
    (pid : Int) (hp : s.pidFile = some pid) (hd : alive pid = false) :
    isSessionRunning alive s = (false, s) := by
  simp [isSessionRunning, hp, hd]

/-- C7 witness: a concrete dead-process world where the check reports
not running with the pid file intact. -/
theorem isSessionRunning_dead_witness :
    isSessionRunning (fun _ => false)
        (saveSessionPid { pidFile := none, referenceCountFile := none } 42)
      = (false,
          saveSessionPid { pidFile := none, referenceCountFile := none } 42) :=
  isSessionRunning_dead (fun _ => false) _ 42 rfl rfl

/-- C7 counterexample: after recordPid wrote pid 42 and the process
died, the liveness check reports false yet the pid file still exists,
against the claimed self-healing deletion. -/
theorem isSessionRunning_dead_keeps_pidfile :
    (isSessionRunning (fun _ => false)
        (saveSessionPid { pidFile := none, referenceCountFile := none } 42)).1
      = false
      ∧ (isSessionRunning (fun _ => false)
          (saveSessionPid
            { pidFile := none, referenceCountFile := none } 42)).2.pidFile
        = some 42 := by
  decide

/-! ## Claim C10: unknown request ids are silent no-ops -/

/-- C10 (confirmed): updateRequest and endRequest on a request id absent
from the in-memory map return the state unchanged: no entry or metric
changes, no disk append, no emitted event. -/
theorem unknownRequest_noop (st : MonState) (rid : Nat) (u : ReqUpdate)
    (response : Option ResponseBody) (err : Option String) (now : Int)
    (h : mapLookup rid st.requests = none) :
    updateRequest rid u now st = st ∧ endRequest rid response err now st = st := by
  constructor
  · unfold updateRequest
    rw [h]
  · unfold endRequest
    rw [h]

/-- C10 witness: a concrete unknown id on the empty service. -/
theorem unknownRequest_noop_witness :
    updateRequest 7 { } 0 emptyMonState = emptyMonState
      ∧ endRequest 7 none none 0 emptyMonState = emptyMonState :=
  unknownRequest_noop emptyMonState 7 { } none none 0 rfl

/-! ## Claim C2: the running average -/

theorem mapLookup_mapSet_self {κ α : Type} [DecidableEq κ] (k : κ) (v : α) :
    ∀ m, mapLookup k (mapSet k v m) = some v := by
  intro m
  induction m with
  | nil => simp [mapSet, mapLookup]
  | cons kv rest ih =>
    by_cases h : kv.1 = k
    · simp [mapSet, h, mapLookup]
    · simp [mapSet, h, mapLookup, ih]

theorem updateSessionMetrics_lookup (r : RequestLog) (now : Int)
    (st : MonState) :
    mapLookup r.sessionId (updateSessionMetrics r now st).sessionMetricsMap
      = some (applyMetricsEntry r
          ((mapLookup r.sessionId st.sessionMetricsMap).getD
            (freshMetrics r.sessionId now))) := by
  simp [updateSessionMetrics, emitEvent, persistMetrics, mapLookup_mapSet_self]

theorem applyMetricsEntry_rc (r : RequestLog) (m : SessionMetrics) :
    (applyMetricsEntry r m).requestCount = m.requestCount + 1 :=
  rfl

theorem applyMetricsEntry_avg (r : RequestLog) (m : SessionMetrics)
    (hs : r.status = .success) (d : Int) (hd : r.duration = some d)
    (hd0 : d ≠ 0) :
    (applyMetricsEntry r m).averageResponseTime
      = (m.averageResponseTime * (m.requestCount : Rat) + (d : Rat))
          / ((m.requestCount + 1 : Nat) : Rat) := by
  simp [applyMetricsEntry, jsTruthyInt, hd, hs, hd0]

theorem durationSumRat_cons (r : RequestLog) (rest : List RequestLog)
    (d : Int) (hdur : r.duration = some d) :
    durationSumRat (r :: rest) = (d : Rat) + durationSumRat rest := by
  simp [durationSumRat, List.filterMap_cons, hdur]

theorem runMetricsUpdates_invariant (sid : String) (now : Int) :
    ∀ (rs : List RequestLog) (st : MonState) (m : SessionMetrics),
      mapLookup sid st.sessionMetricsMap = some m →
      (∀ r ∈ rs, r.sessionId = sid ∧ r.status = .success
        ∧ ∃ d, r.duration = some d ∧ d ≠ 0) →
      ∃ m2,
        mapLookup sid (runMetricsUpdates rs now st).sessionMetricsMap = some m2
        ∧ m2.requestCount = m.requestCount + rs.length
        ∧ m2.averageResponseTime * ((m.requestCount + rs.length : Nat) : Rat)
            = m.averageResponseTime * (m.requestCount : Rat)
              + durationSumRat rs := by
  intro rs
  induction rs with
  | nil =>
    intro st m hm _
    refine ⟨m, hm, by simp, ?_⟩
    simp [durationSumRat]
  | cons r rest ih =>
    intro st m hm hall
    obtain ⟨hsid, hsucc, d, hdur, hd0⟩ := hall r (List.mem_cons_self r rest)
    have hstep : mapLookup sid
        (updateSessionMetrics r now st).sessionMetricsMap
        = some (applyMetricsEntry r m) := by
      have hu := updateSessionMetrics_lookup r now st
      rw [hsid] at hu
      rw [hu, hm]
      rfl
    obtain ⟨m2, h1, h2, h3⟩ := ih (updateSessionMetrics r now st)
      (applyMetricsEntry r m) hstep
      (fun x hx => hall x (List.mem_cons_of_mem _ hx))
    refine ⟨m2, h1, ?_, ?_⟩
    · rw [h2, applyMetricsEntry_rc]
      simp only [List.length_cons]
      omega
    · rw [applyMetricsEntry_rc] at h3
      rw [applyMetricsEntry_avg r m hsucc d hdur hd0] at h3
      have hrc : ((m.requestCount + 1 : Nat) : Rat) ≠ 0 := by
        exact_mod_cast Nat.succ_ne_zero m.requestCount
      rw [div_mul_cancel₀ _ hrc] at h3
      rw [durationSumRat_cons r rest d hdur]
      simp only [List.length_cons]
      push_cast at h3 ⊢
      linarith

/-- C2 (corrected): the stored averageResponseTime divides by the count
of all metric updates of the session, so it equals the batch mean of the
successful durations only on sequences whose updates are all successes
carrying a nonzero duration; for such sequences, completions fed through
endRequest included, the incremental value equals the batch mean, and
the three successful durations 100, 200 and 300 yield exactly 200 both
incrementally and by batch recomputation. -/
theorem averageResponseTime_spec :
    (∀ (sid : String) (now : Int) (st : MonState) (rs : List RequestLog),
        rs ≠ [] →
        mapLookup sid st.sessionMetricsMap = none →
        (∀ r ∈ rs, r.sessionId = sid ∧ r.status = .success
          ∧ ∃ d, r.duration = some d ∧ d ≠ 0) →
        (mapLookup sid (runMetricsUpdates rs now st).sessionMetricsMap).map
            (fun m => m.averageResponseTime)
          = some (durationSumRat rs / (rs.length : Rat)))
      ∧ ((mapLookup "s" c2SuccessTrace.sessionMetricsMap).map
            (fun m => m.averageResponseTime) = some 200
          ∧ specBatchAverage "s" c2SuccessTrace = 200) := by
  constructor
  · intro sid now st rs hne hnone hall
    match rs, hne with
    | r :: rest, _ =>
      obtain ⟨hsid, hsucc, d, hdur, hd0⟩ := hall r (List.mem_cons_self r rest)
      have hstep : mapLookup sid
          (updateSessionMetrics r now st).sessionMetricsMap
          = some (applyMetricsEntry r (freshMetrics sid now)) := by
        have hu := updateSessionMetrics_lookup r now st
        rw [hsid] at hu
        rw [hu, hnone]
        rfl
      obtain ⟨m2, h1, h2, h3⟩ := runMetricsUpdates_invariant sid now rest _ _
        hstep (fun x hx => hall x (List.mem_cons_of_mem _ hx))
      rw [applyMetricsEntry_rc] at h3
      rw [applyMetricsEntry_avg r (freshMetrics sid now) hsucc d hdur hd0]
        at h3
      norm_num [freshMetrics] at h3
      have hrun : runMetricsUpdates (r :: rest) now st
          = runMetricsUpdates rest now (updateSessionMetrics r now st) := rfl
      rw [hrun, h1]
      show some m2.averageResponseTime = _
      congr 1
      rw [eq_div_iff (by
        simp only [List.length_cons]
        push_cast
        positivity)]
      rw [durationSumRat_cons r rest d hdur]
      simp only [List.length_cons]
      push_cast at h3 ⊢
      linarith
  · constructor <;>
    · simp [c2SuccessTrace, startRequest, endRequest, updateRequest,
        updateSessionMetrics, applyMetricsEntry, applyUpdate, emitEvent,
        persistMetrics, persistRequestLog, freshMetrics, emptyMonState,
        maxLogsInMemory, mapLookup, mapSet, mapDelete, mapValues, jsTruthyStr,
        jsTruthyInt, specBatchAverage, archiveOldLogs, sortByTs, insertByTs,
        recordBump]
      norm_num

/-- C2 witness: one successful update of duration 100 for a fresh
session yields the batch mean of its singleton duration list. -/
theorem averageResponseTime_spec_witness :
    (mapLookup "w"
          (runMetricsUpdates [c2WitnessLog] 0 emptyMonState).sessionMetricsMap).map
        (fun m => m.averageResponseTime)
      = some (durationSumRat [c2WitnessLog]
          / (([c2WitnessLog] : List RequestLog).length : Rat)) :=
  averageResponseTime_spec.1 "w" 0 emptyMonState [c2WitnessLog]
    (by simp)
    rfl
    (by
      intro r hr
      simp only [List.mem_singleton] at hr
      subst hr
      exact ⟨rfl, rfl, 100, rfl, by norm_num⟩)

/-- C2 counterexample: an error completion followed by a success of
duration 100 stores an average of 50 while the batch mean of the
successful durations is 100, because the error update inflated the
divisor. -/
theorem averageResponseTime_error_mismatch :
    (mapLookup "s" c2ErrorTrace.sessionMetricsMap).map
        (fun m => m.averageResponseTime) = some 50
      ∧ specBatchAverage "s" c2ErrorTrace = 100 := by
  constructor
  · simp [c2ErrorTrace, startRequest, endRequest, updateRequest,
      updateSessionMetrics, applyMetricsEntry, applyUpdate, emitEvent,
      persistMetrics, persistRequestLog, freshMetrics, emptyMonState,
      maxLogsInMemory, mapLookup, mapSet, mapDelete, mapValues, jsTruthyStr,
      jsTruthyInt, specBatchAverage, archiveOldLogs, sortByTs, insertByTs,
      recordBump]
    norm_num
  · simp [c2ErrorTrace, startRequest, endRequest, updateRequest,
      updateSessionMetrics, applyMetricsEntry, applyUpdate, emitEvent,
      persistMetrics, persistRequestLog, freshMetrics, emptyMonState,
      maxLogsInMemory, mapLookup, mapSet, mapDelete, mapValues, jsTruthyStr,
      jsTruthyInt, specBatchAverage, archiveOldLogs, sortByTs, insertByTs,
      recordBump]

/-! ## Claim C4: capacity and archiving of startRequest -/

theorem mapSet_fresh {κ α : Type} [DecidableEq κ] (k : κ) (v : α) :
    ∀ m : List (κ × α), (∀ kv ∈ m, kv.1 ≠ k) → mapSet k v m = m ++ [(k, v)] := by
  intro m
  induction m with
  | nil => intro _; rfl
  | cons kv rest ih =>
    intro h
    have hk : kv.1 ≠ k := h kv (List.mem_cons_self kv rest)
    simp only [mapSet, if_neg hk, List.cons_append, List.cons.injEq, true_and]
    exact ih (fun x hx => h x (List.mem_cons_of_mem _ hx))

theorem startEntries_length (a k : Nat) : (startEntries a k).length = k := by
  simp [startEntries]

theorem startEntries_succ_right (a k : Nat) :
    startEntries a (k + 1)
      = startEntries a k ++ [(a + k, mkStartEntry (a + k))] := by
  simp [startEntries, List.range'_concat]

theorem startEntries_cons (a k : Nat) :
    startEntries a (k + 1)
      = (a, mkStartEntry a) :: startEntries (a + 1) k := by
  simp [startEntries, List.range'_succ]

theorem startEntries_key_lt (a k : Nat) :
    ∀ kv ∈ startEntries a k, a ≤ kv.1 ∧ kv.1 < a + k := by
  intro kv hkv
  simp only [startEntries, List.mem_map] at hkv
  obtain ⟨i, hi, rfl⟩ := hkv
  exact List.mem_range'_1.mp hi

theorem startRequest_eval (rid : Nat) (now : Int) (st : MonState) :
    startRequest rid now "" "GET" "/v1" st
      = (if (mapSet rid
            { id := rid, timestamp := now, sessionId := "default",
              method := "GET", path := "/v1", status := .pending }
            st.requests).length > maxLogsInMemory then
          archiveOldLogs
            { st with
                requests := mapSet rid
                  { id := rid, timestamp := now, sessionId := "default",
                    method := "GET", path := "/v1", status := .pending }
                  st.requests,
                events := st.events ++ [MonEvent.requestStart
                  { id := rid, timestamp := now, sessionId := "default",
                    method := "GET", path := "/v1", status := .pending }] }
        else
          { st with
              requests := mapSet rid
                { id := rid, timestamp := now, sessionId := "default",
                  method := "GET", path := "/v1", status := .pending }
                st.requests,
              events := st.events ++ [MonEvent.requestStart
                { id := rid, timestamp := now, sessionId := "default",
                  method := "GET", path := "/v1", status := .pending }] }) :=
  rfl

theorem startRequest_step (a k : Nat) (st : MonState)
    (hreq : st.requests = startEntries a k) (hk : k + 1 ≤ 1000) :
    ((startRequest (a + k) ((a + k : Nat) : Int) "" "GET" "/v1" st).requests
        = startEntries a (k + 1))
      ∧ (startRequest (a + k) ((a + k : Nat) : Int) "" "GET" "/v1" st).diskLog
        = st.diskLog := by
  have hfresh : ∀ kv ∈ st.requests, kv.1 ≠ a + k := by
    intro kv hkv
    rw [hreq] at hkv
    have h2 := startEntries_key_lt a k kv hkv
    omega
  have hset : mapSet (a + k)
      { id := a + k, timestamp := ((a + k : Nat) : Int),
        sessionId := "default", method := "GET", path := "/v1",
        status := .pending } st.requests
      = startEntries a (k + 1) := by
    rw [mapSet_fresh _ _ _ hfresh, hreq, startEntries_succ_right]
    rfl
  rw [startRequest_eval, hset,
    if_neg (by rw [startEntries_length]; simp [maxLogsInMemory]; omega)]
  exact ⟨rfl, rfl⟩

theorem feedFrom_zero (start : Nat) (st : MonState) :
    feedFrom start 0 st = st :=
  rfl

theorem feedFrom_succ (start cnt : Nat) (st : MonState) :
    feedFrom start (cnt + 1) st
      = feedFrom (start + 1) cnt
          (startRequest start ((start : Nat) : Int) "" "GET" "/v1" st) := by
  simp [feedFrom, List.range'_succ]

theorem feedFrom_add (s c1 c2 : Nat) (st : MonState) :
    feedFrom s (c1 + c2) st = feedFrom (s + c1) c2 (feedFrom s c1 st) := by
  unfold feedFrom
  have h := List.range'_append s c1 c2 1
  rw [show c1 + c2 = c2 + c1 from by omega, ← h, List.foldl_append, one_mul]

theorem feedFrom_segment : ∀ (cnt a k : Nat) (st : MonState),
    k + cnt ≤ 1000 →
    st.requests = startEntries a k →
    (feedFrom (a + k) cnt st).requests = startEntries a (k + cnt)
      ∧ (feedFrom (a + k) cnt st).diskLog = st.diskLog := by
  intro cnt
  induction cnt with
  | zero =>
    intro a k st _ hreq
    rw [feedFrom_zero]
    exact ⟨by simpa using hreq, rfl⟩
  | succ n ih =>
    intro a k st hk hreq
    rw [feedFrom_succ]
    obtain ⟨hr, hd⟩ := startRequest_step a k st hreq (by omega)
    obtain ⟨ihr, ihd⟩ := ih a (k + 1)
      (startRequest (a + k) ((a + k : Nat) : Int) "" "GET" "/v1" st)
      (by omega) hr
    constructor
    · have e1 : k + 1 + n = k + (n + 1) := by omega
      rw [e1] at ihr
      exact ihr
    · exact ihd.trans hd

theorem startEntries_chain : ∀ (k a : Nat),
    List.Chain' (fun x y : Nat × RequestLog =>
      x.2.timestamp ≤ y.2.timestamp) (startEntries a k) := by
  intro k
  induction k with
  | zero =>
    intro a
    simp [startEntries]
  | succ n ih =>
    intro a
    rw [startEntries_cons]
    cases n with
    | zero => simp [startEntries]
    | succ m =>
      rw [startEntries_cons]
      refine List.chain'_cons.mpr ⟨?_, ?_⟩
      · show ((a : Nat) : Int) ≤ ((a + 1 : Nat) : Int)
        push_cast
        omega
      · rw [← startEntries_cons]
        exact ih (a + 1)

theorem sortByTs_sorted : ∀ (l : List (Nat × RequestLog)),
    List.Chain' (fun x y => x.2.timestamp ≤ y.2.timestamp) l →
    sortByTs l = l := by
  intro l
  induction l with
  | nil => intro _; rfl
  | cons x xs ih =>
    intro h
    have hx : sortByTs (x :: xs) = insertByTs x (sortByTs xs) := rfl
    rw [hx, ih h.tail]
    cases xs with
    | nil => rfl
    | cons y ys =>
      have hxy := (List.chain'_cons.mp h).1
      simp [insertByTs, hxy]

theorem startEntries_take (a m k : Nat) (h : m ≤ k) :
    (startEntries a k).take m = startEntries a m := by
  have hsplit : startEntries a k
      = startEntries a m ++ startEntries (a + m) (k - m) := by
    have hr := List.range'_append a m (k - m) 1
    rw [one_mul] at hr
    have hk : k - m + m = k := by omega
    rw [hk] at hr
    simp only [startEntries]
    rw [← hr, List.map_append]
  rw [hsplit]
  exact List.take_left' (startEntries_length a m)

theorem mapDelete_not_mem {κ α : Type} [DecidableEq κ] (k : κ) :
    ∀ m : List (κ × α), (∀ kv ∈ m, kv.1 ≠ k) → mapDelete k m = m := by
  intro m h
  rw [mapDelete, List.filter_eq_self.mpr]
  intro kv hkv
  simpa using h kv hkv

theorem mapDelete_head_startEntries (a n : Nat) :
    mapDelete a (startEntries a (n + 1)) = startEntries (a + 1) n := by
  rw [startEntries_cons]
  have h1 : ∀ kv ∈ startEntries (a + 1) n, kv.1 ≠ a := by
    intro kv hkv
    have := startEntries_key_lt (a + 1) n kv hkv
    omega
  calc mapDelete a ((a, mkStartEntry a) :: startEntries (a + 1) n)
      = mapDelete a (startEntries (a + 1) n) := by
        simp [mapDelete]
    _ = startEntries (a + 1) n := mapDelete_not_mem a _ h1

theorem archive_foldl : ∀ (os : List (Nat × RequestLog)) (st : MonState),
    ((os.foldl
        (fun st kv =>
          { st with diskLog := st.diskLog ++ [kv.2],
                    requests := mapDelete kv.1 st.requests }) st).requests
      = os.foldl (fun m kv => mapDelete kv.1 m) st.requests)
    ∧ ((os.foldl
        (fun st kv =>
          { st with diskLog := st.diskLog ++ [kv.2],
                    requests := mapDelete kv.1 st.requests }) st).diskLog
      = st.diskLog ++ os.map (fun kv => kv.2)) := by
  intro os
  induction os with
  | nil =>
    intro st
    exact ⟨rfl, by simp⟩
  | cons kv rest ih =>
    intro st
    obtain ⟨h1, h2⟩ := ih
      { st with diskLog := st.diskLog ++ [kv.2],
                requests := mapDelete kv.1 st.requests }
    constructor
    · simp only [List.foldl_cons]
      exact h1
    · simp only [List.foldl_cons]
      rw [h2]
      simp

theorem deleteFold_startEntries : ∀ (cnt a n : Nat), cnt ≤ n →
    (startEntries a cnt).foldl (fun m kv => mapDelete kv.1 m)
        (startEntries a n)
      = startEntries (a + cnt) (n - cnt) := by
  intro cnt
  induction cnt with
  | zero =>
    intro a n _
    simp [startEntries]
  | succ c ih =>
    intro a n hcn
    rw [startEntries_cons]
    simp only [List.foldl_cons]
    have hn : n = (n - 1) + 1 := by omega
    have hdel : mapDelete a (startEntries a n) = startEntries (a + 1) (n - 1) := by
      conv_lhs => rw [hn]
      exact mapDelete_head_startEntries a (n - 1)
    rw [hdel, ih (a + 1) (n - 1) (by omega)]
    have e1 : a + 1 + c = a + (c + 1) := by omega
    have e2 : n - 1 - c = n - (c + 1) := by omega
    rw [e1, e2]

theorem archiveOldLogs_def (st : MonState) :
    archiveOldLogs st
      = ((sortByTs st.requests).take 100).foldl
          (fun st kv =>
            { st with diskLog := st.diskLog ++ [kv.2],
                      requests := mapDelete kv.1 st.requests }) st :=
  rfl

theorem archiveOldLogs_eval (st : MonState)
    (h : st.requests = startEntries 0 1001) :
    (archiveOldLogs st).requests = startEntries 100 901
      ∧ (archiveOldLogs st).diskLog
        = st.diskLog ++ (startEntries 0 100).map (fun kv => kv.2) := by
  rw [archiveOldLogs_def, h, sortByTs_sorted _ (startEntries_chain 1001 0),
    startEntries_take 0 100 1001 (by omega)]
  obtain ⟨h1, h2⟩ := archive_foldl (startEntries 0 100) st
  refine ⟨?_, h2⟩
  rw [h1, h, deleteFold_startEntries 100 0 1001 (by omega)]

theorem startRequest_step_archive (st : MonState)
    (hreq : st.requests = startEntries 0 1000) :
    (startRequest 1000 ((1000 : Nat) : Int) "" "GET" "/v1" st).requests
        = startEntries 100 901
      ∧ (startRequest 1000 ((1000 : Nat) : Int) "" "GET" "/v1" st).diskLog
        = st.diskLog ++ (startEntries 0 100).map (fun kv => kv.2) := by
  have hfresh : ∀ kv ∈ st.requests, kv.1 ≠ 1000 := by
    intro kv hkv
    rw [hreq] at hkv
    have h2 := startEntries_key_lt 0 1000 kv hkv
    omega
  have hset : mapSet 1000
      { id := 1000, timestamp := ((1000 : Nat) : Int),
        sessionId := "default", method := "GET", path := "/v1",
        status := .pending } st.requests
      = startEntries 0 1001 := by
    rw [mapSet_fresh _ _ _ hfresh, hreq]
    have hs := startEntries_succ_right 0 1000
    norm_num at hs
    rw [hs]
    rfl
  rw [startRequest_eval, hset,
    if_pos (by rw [startEntries_length]; decide)]
  exact archiveOldLogs_eval _ rfl

/-- C4 (confirmed): feeding 1100 fresh requests with strictly increasing
timestamps through startRequest from the empty service leaves exactly
the 1000 youngest entries, numbers 100 through 1099, in the in-memory
map and appends exactly the 100 oldest entries, numbers 0 through 99, to
the on-disk log in ascending timestamp order. -/
theorem startRequest_capacity_spec :
    (feedStartRequests 1100).requests = startEntries 100 1000
      ∧ (feedStartRequests 1100).requests.length = 1000
      ∧ (feedStartRequests 1100).diskLog
        = (startEntries 0 100).map (fun kv => kv.2) := by
  have hfeed : feedStartRequests 1100 = feedFrom 0 1100 emptyMonState := by
    unfold feedStartRequests feedFrom
    rw [List.range_eq_range']
  have e1 : (1100 : Nat) = 1000 + 1 + 99 := by norm_num
  rw [hfeed, e1, feedFrom_add, feedFrom_add]
  obtain ⟨p1r, p1d⟩ := feedFrom_segment 1000 0 0 emptyMonState
    (by omega) rfl
  have p1r2 : (feedFrom 0 1000 emptyMonState).requests
      = startEntries 0 1000 := p1r
  have p1d2 : (feedFrom 0 1000 emptyMonState).diskLog
      = emptyMonState.diskLog := p1d
  have hstep : feedFrom (0 + 1000) 1 (feedFrom 0 1000 emptyMonState)
      = startRequest 1000 ((1000 : Nat) : Int) "" "GET" "/v1"
          (feedFrom 0 1000 emptyMonState) := by
    rw [feedFrom_succ, feedFrom_zero]
  obtain ⟨p2r, p2d⟩ := startRequest_step_archive
    (feedFrom 0 1000 emptyMonState) p1r2
  obtain ⟨p3r, p3d⟩ := feedFrom_segment 99 100 901
    (startRequest 1000 ((1000 : Nat) : Int) "" "GET" "/v1"
      (feedFrom 0 1000 emptyMonState))
    (by omega) p2r
  rw [hstep]
  have p3r2 : (feedFrom (0 + (1000 + 1)) 99
      (startRequest 1000 ((1000 : Nat) : Int) "" "GET" "/v1"
        (feedFrom 0 1000 emptyMonState))).requests
      = startEntries 100 1000 := p3r
  have p3d2 : (feedFrom (0 + (1000 + 1)) 99
      (startRequest 1000 ((1000 : Nat) : Int) "" "GET" "/v1"
        (feedFrom 0 1000 emptyMonState))).diskLog
      = (startRequest 1000 ((1000 : Nat) : Int) "" "GET" "/v1"
          (feedFrom 0 1000 emptyMonState)).diskLog := p3d
  refine ⟨p3r2, ?_, ?_⟩
  · rw [p3r2, startEntries_length]
  · rw [p3d2, p2d, p1d2]
    rfl

/-! ## Claim C8: the session stop endpoint -/

/-- C8 (corrected): for a single-session world, stopping by session id
behaves as follows. A pid dead already at enumeration time gives 404,
because the liveness filter of getAllActiveSessions excludes the session
before the handler can report it stopped. The idempotent success with
the already-stopped message arises only when the process dies between
the enumeration and the signal, and then only the pid file is removed
while the reference count file survives. A permission failure gives 403
with both files untouched. Only the successful-termination path removes
both the pid file and the reference count file. -/
theorem stopSession_spec (w : StopWorld) (s : SessionEntry) (pid : Int)
    (hw : w.sessions = [s]) (hc : s.configPresent = true)
    (hp : s.pidFile = some pid) :
    (w.aliveAtList pid = false →
        stopSession w s.sessionId = (.notFound, w.sessions))
      ∧ (w.aliveAtList pid = true → w.aliveAtKill pid = false →
          stopSession w s.sessionId
            = (.ok true ("Session " ++ s.sessionId ++ " was already stopped"),
                [{ s with pidFile := none }]))
      ∧ (w.aliveAtList pid = true → w.aliveAtKill pid = true →
          w.canSignal pid = false →
          stopSession w s.sessionId = (.forbidden, w.sessions))
      ∧ (w.aliveAtList pid = true → w.aliveAtKill pid = true →
          w.canSignal pid = true →
          stopSession w s.sessionId
            = (.ok true ("Session " ++ s.sessionId ++ " stopped successfully"),
                [{ s with pidFile := none, referenceCountFile := none }])) := by
  refine ⟨?_, ?_, ?_, ?_⟩
  · intro h1
    simp [stopSession, getAllActiveSessions, hw, hc, hp, h1]
  · intro h1 h2
    simp [stopSession, getAllActiveSessions, cleanupPidIn, hw, hc, hp, h1, h2]
  · intro h1 h2 h3
    simp [stopSession, getAllActiveSessions, cleanupPidIn, clearRefCountIn,
      hw, hc, hp, h1, h2, h3]
  · intro h1 h2 h3
    simp [stopSession, getAllActiveSessions, cleanupPidIn, clearRefCountIn,
      hw, hc, hp, h1, h2, h3]

/-- C8 witness: the four outcomes at a concrete session with pid 42 and
reference count 2. -/
theorem stopSession_spec_witness :
    stopSession c8DeadWorld "s1" = (.notFound, c8DeadWorld.sessions)
      ∧ stopSession c8RaceWorld "s1"
        = (.ok true "Session s1 was already stopped",
            [⟨"s1", true, none, some 2⟩])
      ∧ stopSession c8PermWorld "s1" = (.forbidden, c8PermWorld.sessions)
      ∧ stopSession c8KillWorld "s1"
        = (.ok true "Session s1 stopped successfully",
            [⟨"s1", true, none, none⟩]) :=
  ⟨(stopSession_spec c8DeadWorld ⟨"s1", true, some 42, some 2⟩ 42
      rfl rfl rfl).1 rfl,
    (stopSession_spec c8RaceWorld ⟨"s1", true, some 42, some 2⟩ 42
      rfl rfl rfl).2.1 rfl rfl,
    (stopSession_spec c8PermWorld ⟨"s1", true, some 42, some 2⟩ 42
      rfl rfl rfl).2.2.1 rfl rfl rfl,
    (stopSession_spec c8KillWorld ⟨"s1", true, some 42, some 2⟩ 42
      rfl rfl rfl).2.2.2 rfl rfl rfl⟩

/-- C8 counterexample: on the world whose recorded pid 42 is dead at
request time, stop answers 404 session-not-found, not the claimed
idempotent already-stopped success. -/
theorem stopSession_dead_pid_not_found :
    (stopSession c8DeadWorld "s1").1 = StopResponse.notFound
      ∧ (stopSession c8DeadWorld "s1").1
        ≠ StopResponse.ok true "Session s1 was already stopped" := by
  decide

/-! ## Claim C9: streamLogs subscribers -/

theorem runWs_nil (f : Option String) :
    ∀ (sched : List WsAction), runWs f sched [] = [] := by
  intro sched
  induction sched with
  | nil => rfl
  | cons a rest ih =>
    cases a with
    | emitted e => simpa [runWs, deliver] using ih
    | close => simpa [runWs] using ih

theorem streamListeners_close :
    streamListeners.filter (fun l => !(streamListeners.contains l)) = [] := by
  decide

theorem runWs_close_absorbs (f : Option String) :
    ∀ (pre post : List WsAction) (ls : List (EvName × HandlerKind)),
      ls = streamListeners ∨ ls = [] →
      runWs f (pre ++ WsAction.close :: post) ls
        = runWs f (pre ++ [WsAction.close]) ls := by
  intro pre
  induction pre with
  | nil =>
    intro post ls hls
    have hL : ∀ q : List WsAction,
        runWs f (WsAction.close :: q) ls = [] := by
      intro q
      rcases hls with rfl | rfl
      · show runWs f q
          (streamListeners.filter fun l => !(streamListeners.contains l)) = []
        rw [streamListeners_close]
        exact runWs_nil f q
      · show runWs f q ([].filter fun l => !(streamListeners.contains l)) = []
        exact runWs_nil f q
    rw [List.nil_append, List.nil_append, hL post, hL []]
  | cons a rest ih =>
    intro post ls hls
    cases a with
    | emitted e =>
      simp only [List.cons_append, runWs, List.append_eq]
      rw [ih post ls hls]
    | close =>
      simp only [List.cons_append, runWs, List.append_eq]
      apply ih
      rcases hls with rfl | rfl
      · right
        exact streamListeners_close
      · right
        rfl

/-- C9 (confirmed): a streamLogs subscriber receives the initial frame,
carrying at most 50 matching entries, as its very first frame, before
any live log or metrics frame; and once its close signal fires, all four
registered listeners are removed, so the frames received under any
schedule with events after the close equal the frames received when the
schedule ends at the close: nothing is delivered afterwards. -/
theorem streamLogs_spec (st : MonState) (f : Option String)
    (sched pre post : List WsAction) :
    (streamLogsFrames st f sched).head?
        = some (Frame.initial (getRecentRequests f 50 st))
      ∧ (getRecentRequests f 50 st).length ≤ 50
      ∧ streamLogsFrames st f (pre ++ WsAction.close :: post)
        = streamLogsFrames st f (pre ++ [WsAction.close]) := by
  refine ⟨rfl, ?_, ?_⟩
  · simp only [getRecentRequests, List.length_take]
    exact min_le_left _ _
  · unfold streamLogsFrames
    rw [runWs_close_absorbs f pre post streamListeners (Or.inl rfl)]

end CCR
